import Mathlib

/-!
Shallow embedding of the google-drive-api service (FastAPI + Google Drive v3
proxy) and proofs about its specification claims.

Source layout embedded here:
- `src/errors/http_exceptions.py` : error envelopes and `handle_exception`
- `src/models/archive.py`         : `File.from_json`, `Folder.from_json`
- `src/controllers/drive_management.py` : `ArchiveManager` (`list`, `get`,
  `delete`, `update`, `create`), `FolderManager` (`list_files`, `root_folder`),
  `FileManager` (`create_empty_file`, `upload_file_content`)
- `src/routers/*`                 : route handlers and `verify_credentials`
- `src/utils/crypt.py`            : `CriptDict.encrypt` / `CriptDict.decrypt`

The Google Drive provider is modelled as a list of raw JSON records; provider
calls that the code issues are reified as values (`DriveCall`) so theorems can
speak about exactly which request the code builds.  Python exceptions are an
explicit `PyExc` type; routes return `Except PyExc α`.
-/

/-- Detail payload of a FastAPI `HTTPException` as built in
`src/errors/http_exceptions.py`: a `message`, a `status`, and (for the
internal-server-error envelope only) an `error` string. -/
structure Envelope where
  message : String
  status : Nat
  error : Option String
deriving DecidableEq, Repr

/-- Python exceptions that occur in the embedded code paths.
`http` is a FastAPI `HTTPException` (status code plus detail envelope);
`providerHttpError` is `googleapiclient.errors.HttpError` (carries the
provider's HTTP status and a reason string); `keyError` is a Python
`KeyError` raised by `json[missing]`; `attributeError` is raised by
attribute lookup on an object lacking the attribute; `invalidToken` is
`cryptography.fernet.InvalidToken`; `jsonDecodeError` is
`json.JSONDecodeError`. -/
inductive PyExc where
  | http (status : Nat) (detail : Envelope)
  | providerHttpError (status : Nat) (reason : String)
  | keyError (field : String)
  | attributeError (attr : String)
  | invalidToken
  | jsonDecodeError
deriving DecidableEq, Repr

/-- Rendering `str(e)` for the non-HTTP exceptions, as interpolated into the
internal-server-error envelope.  The exact text of these external library
messages is a modelling choice; nothing downstream depends on it. -/
def pyStr : PyExc → String
  | .http _ d => d.message
  | .providerHttpError s reason => "<HttpError " ++ toString s ++ ": " ++ reason ++ ">"
  | .keyError k => "\x27" ++ k ++ "\x27"
  | .attributeError a =>
      "\x27FolderManager\x27 object has no attribute \x27" ++ a ++ "\x27"
  | .invalidToken => "InvalidToken"
  | .jsonDecodeError => "Expecting value: line 1 column 1 (char 0)"

/-- `NotFoundException(archive_type, id)` from `http_exceptions.py`: 404 with
message `"{type} of id '{id}' not Found"`. -/
def NotFoundException (typeName id : String) : PyExc :=
  .http 404 ⟨typeName ++ " of id \x27" ++ id ++ "\x27 not Found", 404, none⟩

/-- `NotAuthenticatedException()` from `http_exceptions.py`: 401 with a fixed
message. -/
def NotAuthenticatedException : PyExc :=
  .http 401 ⟨"User is not authenticated. Please, use the correct credentials.", 401, none⟩

/-- `InternalServerErrorException(detail, error)` from `http_exceptions.py`:
500 envelope; the `error` field is `str(error)` when an exception is given and
the literal `"N/A"` otherwise. -/
def InternalServerErrorException (detail : String) (error : Option String) : PyExc :=
  .http 500 ⟨detail, 500, some (error.getD "N/A")⟩

/-- `handle_exception` from `http_exceptions.py`: a FastAPI `HTTPException`
passes through unchanged, anything else is wrapped in the 500 envelope with
`str(e)` preserved. -/
def handle_exception (e : PyExc) : PyExc :=
  match e with
  | .http s d => .http s d
  | e => InternalServerErrorException "An internal server error occurred." (some (pyStr e))

/-- Status code of an exception as seen by an HTTP caller (only HTTPExceptions
carry one; anything else FastAPI turns into a bare 500). -/
def PyExc.statusCode : PyExc → Nat
  | .http s _ => s
  | _ => 500

/-- Raw provider JSON record, restricted to the fields the code ever reads
(`id`, `name`, `fileExtension`, `mimeType`, `parents`); a `none` field models
the key being absent from the JSON object. -/
structure RawRecord where
  id : Option String
  name : Option String
  fileExtension : Option String
  mimeType : Option String
  parents : Option (List String)
deriving DecidableEq, Repr

/-- The `File` pydantic model from `src/models/archive.py`. -/
structure File where
  id : String
  name : String
  extension : String
  parents : List String
  mimeType : String
  link : String
  downloadLink : String
deriving DecidableEq, Repr

/-- The `Folder` pydantic model from `src/models/archive.py`. -/
structure Folder where
  id : String
  name : String
  parents : List String
  link : String
deriving DecidableEq, Repr

/-- `File.from_json` from `src/models/archive.py`.  Mandatory keys are read
with `json[...]` (a missing key raises `KeyError`, in the evaluation order of
the Python source: `id`, `name`, `fileExtension`, `mimeType` — the
`parents` key is read with `json.get('parents', [])` and so never fails);
`link` and `downloadLink` are derived from the id. -/
def File.from_json (json : RawRecord) : Except PyExc File :=
  match json.id with
  | none => .error (.keyError "id")
  | some i =>
    match json.name with
    | none => .error (.keyError "name")
    | some n =>
      match json.fileExtension with
      | none => .error (.keyError "fileExtension")
      | some ext =>
        match json.mimeType with
        | none => .error (.keyError "mimeType")
        | some mt =>
          .ok ⟨i, n, ext, json.parents.getD [], mt,
               "https://drive.google.com/file/d/" ++ i,
               "https://drive.google.com/uc?export=download&id=" ++ i⟩

/-- `Folder.from_json` from `src/models/archive.py`: mandatory keys `id` and
`name`; `parents` defaults to `[]`; `link` derived from the id. -/
def Folder.from_json (json : RawRecord) : Except PyExc Folder :=
  match json.id with
  | none => .error (.keyError "id")
  | some i =>
    match json.name with
    | none => .error (.keyError "name")
    | some n =>
      .ok ⟨i, n, json.parents.getD [],
           "https://drive.google.com/drive/folders/" ++ i⟩

/-- The provider's reserved MIME type for folders. -/
def folderMime : String := "application/vnd.google-apps.folder"

/-- State of the provider: the (ordered) collection of raw records the Drive
holds, as the provider would serve them. -/
def Drive := List RawRecord

/-- Provider side of `files().list(...)`: filter by the folder-MIME query
(`=` when listing folders, `!=` when listing files) and return the first page
of at most `pageSize` records.  Field projection is not modelled: records
already carry only the fields the code ever reads. -/
def providerListPage (d : Drive) (isFolder : Bool) (pageSize : Nat) : List RawRecord :=
  (List.filter (fun r => ((r.mimeType == some folderMime) == isFolder)) d).take pageSize

/-- Provider side of `files().get(fileId=id)`: the record with that id, if
present. -/
def providerGet (d : Drive) (id : String) : Option RawRecord :=
  List.find? (fun r => r.id == some id) d

/-- Python truthiness of an optional string (`if s:`): `none` and the empty
string are falsy; a non-empty string is returned. -/
def truthyStr : Option String → Option String
  | none => none
  | some s => if s = "" then none else some s

/-- Evaluation of a Python list comprehension `[f(x) for x in xs]` whose body
may raise: the first raised exception aborts and propagates. -/
def exceptMap (f : RawRecord → Except PyExc α) : List RawRecord → Except PyExc (List α)
  | [] => .ok []
  | r :: rs =>
    match f r with
    | .error e => .error e
    | .ok a =>
      match exceptMap f rs with
      | .error e => .error e
      | .ok as => .ok (a :: as)

/-- Attribute-projection string used by `FileManager`
(`BASE_FIELDS` plus the extra fields passed by its constructor). -/
def FileManager.itemFields : String := "id, name, parents, fileExtension, mimeType"

/-- Attribute-projection string used by `FolderManager` (just `BASE_FIELDS`). -/
def FolderManager.itemFields : String := "id, name, parents"

/-- `ArchiveManager.list` as configured by `FileManager` (`is_folder=False`,
`RETURN_TYPE=File`): first page of non-folder records, each converted by
`File.from_json`; a conversion error propagates. -/
def FileManager.list (d : Drive) (pageSize : Nat := 10) : Except PyExc (List File) :=
  exceptMap File.from_json (providerListPage d false pageSize)

/-- `ArchiveManager.list` as configured by `FolderManager` (`is_folder=True`,
`RETURN_TYPE=Folder`). -/
def FolderManager.list (d : Drive) (pageSize : Nat := 10) : Except PyExc (List Folder) :=
  exceptMap Folder.from_json (providerListPage d true pageSize)

/-- `ArchiveManager.get` as configured by `FileManager`: fetch by id (the
provider answers a 404 `HttpError` when the id does not exist — `get` itself
installs no handler, so that error propagates to the caller) and convert with
`File.from_json`. -/
def FileManager.get (d : Drive) (id : String) : Except PyExc File :=
  match providerGet d id with
  | none => .error (.providerHttpError 404 ("File not found: " ++ id))
  | some r => File.from_json r

/-- `ArchiveManager.get` as configured by `FolderManager`. -/
def FolderManager.get (d : Drive) (id : String) : Except PyExc Folder :=
  match providerGet d id with
  | none => .error (.providerHttpError 404 ("File not found: " ++ id))
  | some r => Folder.from_json r

/-- `ArchiveManager.delete`: `files().delete(fileId=id)` removes the record;
the provider answers 404 (propagated unwrapped, as in `get`) when the id does
not exist.  On success the new drive state is returned. -/
def FileManager.delete (d : Drive) (id : String) : Except PyExc Drive :=
  match providerGet d id with
  | none => .error (.providerHttpError 404 ("File not found: " ++ id))
  | some _ => .ok (List.filter (fun r => !(r.id == some id)) d)

/-- Body of a `files().update` call (`update_body` in the source: the only
metadata key the code ever sets is `name`). -/
structure UpdateBody where
  name : Option String
deriving DecidableEq, Repr

/-- Metadata body of a `files().create` call (`file_metadata` in the source). -/
structure CreateBody where
  name : String
  mimeType : Option String
  parents : Option (List String)
deriving DecidableEq, Repr

/-- A `MediaIoBaseUpload` argument: the wrapped bytes, declared MIME type and
the `resumable` flag. -/
structure MediaUpload where
  content : List Nat
  mimetype : String
  resumable : Bool
deriving DecidableEq, Repr

/-- A reified provider request as the code builds it.  Optional keyword
arguments that the source never passes (`supportsAllDrives`, `media_body`,
`addParents`, `removeParents`, `body`) appear with the client library's
defaults when omitted (`supportsAllDrives` defaults to `false`). -/
inductive DriveCall where
  | update (fileId : String) (body : Option UpdateBody) (media_body : Option MediaUpload)
      (addParents removeParents : Option String) (fields : String)
      (supportsAllDrives : Bool)
  | create (body : CreateBody) (media_body : Option MediaUpload) (fields : String)
      (supportsAllDrives : Bool)
deriving DecidableEq, Repr

/-- Whether a reified call asked the provider for shared-drive support. -/
def DriveCall.supports : DriveCall → Bool
  | .update _ _ _ _ _ _ s => s
  | .create _ _ _ s => s

/-- Whether a reified call is a `files().update` (as opposed to a create). -/
def DriveCall.isUpdate : DriveCall → Bool
  | .update _ _ _ _ _ _ _ => true
  | .create _ _ _ _ => false

/-- `ArchiveManager.update`, reified to the single combined provider call it
issues.  Step (a): `files().get(fileId=id, fields='parents')` — a missing id
makes the provider raise and the method propagate.  Step (b): build
`update_body` (the `name` key only when `name` is truthy), and pass
`addParents`/`removeParents` only when `new_parent_id` is truthy, with
`removeParents` the comma-join of the current parents and omitted when that
join is the empty string. -/
def ArchiveManager.update_call (fields : String) (d : Drive) (id : String)
    (name new_parent_id : Option String) : Except PyExc DriveCall :=
  match providerGet d id with
  | none => .error (.providerHttpError 404 ("File not found: " ++ id))
  | some item =>
    let old_parents := String.intercalate "," (item.parents.getD [])
    let body : UpdateBody := ⟨truthyStr name⟩
    match truthyStr new_parent_id with
    | some p =>
      if old_parents = "" then
        .ok (.update id (some body) none (some p) none fields false)
      else
        .ok (.update id (some body) none (some p) (some old_parents) fields false)
    | none => .ok (.update id (some body) none none none fields false)

/-- `ArchiveManager.create`, reified to the provider call it issues:
`file_metadata` gets `mimeType` from the argument when truthy, else the folder
MIME type when the manager is folder-configured; `parents` is `[parent_id]`
when `parent_id` is truthy. -/
def ArchiveManager.create_call (isFolder : Bool) (fields : String) (name : String)
    (parent_id : Option String) (mime_type : Option String) : DriveCall :=
  let mt : Option String :=
    match truthyStr mime_type with
    | some m => some m
    | none => if isFolder then some folderMime else none
  let ps : Option (List String) :=
    match truthyStr parent_id with
    | some p => some [p]
    | none => none
  .create ⟨name, mt, ps⟩ none fields false

/-- `FileManager.create_empty_file`: `create` with an explicit MIME type on the
file-configured manager. -/
def FileManager.create_empty_file (name : String) (mime_type : String)
    (parent_id : Option String) : DriveCall :=
  ArchiveManager.create_call false FileManager.itemFields name parent_id (some mime_type)

/-- `FileManager.upload_file_content`: one `files().update` call on the
existing file `id` carrying a resumable `MediaIoBaseUpload` of the content
with the declared MIME type; no `body` and no `supportsAllDrives` argument is
passed. -/
def FileManager.upload_file_content (id : String) (content : List Nat)
    (mime_type : String) : DriveCall :=
  .update id none (some ⟨content, mime_type, true⟩) none none FileManager.itemFields false

/-- `FolderManager.list_files`: list all files (a `FileManager` listing with
the default page size) and keep those whose parents list is non-empty and has
the given folder as first element. -/
def FolderManager.list_files (d : Drive) (folder_id : String) : Except PyExc (List File) :=
  match FileManager.list d 10 with
  | .error e => .error e
  | .ok fs =>
    .ok (fs.filter (fun f =>
      match f.parents with
      | [] => false
      | p :: _ => p == folder_id))

/-- `FolderManager.root_folder` applied to the outcome of `self.list()`:
inside `try`, the first listed folder with falsy (empty) `parents` is
returned, otherwise `NotFoundException(Folder, 'root')` is raised; the bare
`except:` turns any exception — including a failed listing and the
exception raised after the loop — into that same `NotFoundException`. -/
def FolderManager.root_folder_of (folders : Except PyExc (List Folder)) : Except PyExc Folder :=
  match folders with
  | .error _ => .error (NotFoundException "Folder" "root")
  | .ok fs =>
    match fs.find? (fun f => f.parents.isEmpty) with
    | some f => .ok f
    | none => .error (NotFoundException "Folder" "root")

/-- `FolderManager.root_folder` over a drive state: the listing it examines is
the manager's own page-limited `list()`. -/
def FolderManager.root_folder (d : Drive) : Except PyExc Folder :=
  FolderManager.root_folder_of (FolderManager.list d 10)

/-- Methods defined on a `FolderManager` instance (its own plus those
inherited from `ArchiveManager`), for modelling Python attribute lookup. -/
def FolderManager.methodNames : List String :=
  ["list_files", "root_folder", "create_folder",
   "list", "get", "delete", "update", "create"]

/-- Route `GET /files/{id}` (`get_file` in `file_router.py`): call the manager
inside `try` and wrap any exception with `handle_exception`. -/
def routeGetFile (d : Drive) (id : String) : Except PyExc File :=
  match FileManager.get d id with
  | .ok f => .ok f
  | .error e => .error (handle_exception e)

/-- Route `GET /files/` (`list_files` in `file_router.py`). -/
def routeListFiles (d : Drive) : Except PyExc (List File) :=
  match FileManager.list d 10 with
  | .ok fs => .ok fs
  | .error e => .error (handle_exception e)

/-- Route `DELETE /files/{id}` (`delete_file` in `file_router.py`); the payload
on success is the `{status: 410, message}` dictionary, which we carry as the
new drive state plus the message. -/
def routeDeleteFile (d : Drive) (id : String) : Except PyExc (Drive × String) :=
  match FileManager.delete d id with
  | .ok d2 => .ok (d2, "file of id \x27" ++ id ++ "\x27 successfully deleted")
  | .error e => .error (handle_exception e)

/-- Route `GET /folders/{id}/files` (`list_files` in `folder_router.py`).  The
handler invokes `FolderManager(...).list_files_in_folder(id)`; Python attribute
lookup finds no such method on `FolderManager`, so an `AttributeError` is
raised and the handler's `except` wraps it via `handle_exception`. -/
def routeFolderListFiles (d : Drive) (id : String) : Except PyExc (List File) :=
  if FolderManager.methodNames.contains "list_files_in_folder" then
    match FolderManager.list_files d id with
    | .ok fs => .ok fs
    | .error e => .error (handle_exception e)
  else
    .error (handle_exception (.attributeError "list_files_in_folder"))

/-- Route `GET /folders/root` (`get_root_folder` in `folder_router.py`). -/
def routeRootFolder (d : Drive) : Except PyExc Folder :=
  match FolderManager.root_folder d with
  | .ok f => .ok f
  | .error e => .error (handle_exception e)

/-- Extension-to-MIME mapping hardcoded in the `POST /files/` handler. -/
def mimeTypeMap : List (String × String) :=
  [("txt", "text/plain"), ("pdf", "application/pdf"), ("png", "image/png"),
   ("jpg", "image/jpeg"), ("jpeg", "image/jpeg"), ("gif", "image/gif"),
   ("doc", "application/msword"),
   ("docx", "application/vnd.openxmlformats-officedocument.wordprocessingml.document"),
   ("xls", "application/vnd.ms-excel"),
   ("xlsx", "application/vnd.openxmlformats-officedocument.spreadsheetml.sheet"),
   ("ppt", "application/vnd.ms-powerpoint"),
   ("pptx", "application/vnd.openxmlformats-officedocument.presentationml.presentation")]

/-- Last `'.'`-separated segment of a character sequence: the value of
Python's `name.split('.')[-1]` (the whole name when it has no dot, the empty
string after a trailing dot). -/
def lastSegAux (acc : List Char) : List Char → List Char
  | [] => acc.reverse
  | c :: r => if c = Char.ofNat 46 then lastSegAux [] r else lastSegAux (c :: acc) r

/-- MIME type the `POST /files/` handler derives from the file name:
`name.split('.')[-1].lower()` looked up in the map, defaulting to
`application/octet-stream`.  Lowercasing is per character (the map's keys are
ASCII, where Python's `str.lower` agrees with character-wise lowering). -/
def extMime (name : String) : String :=
  let ext := String.mk ((lastSegAux [] name.data).map Char.toLower)
  ((mimeTypeMap.find? (fun kv => kv.1 == ext)).map (fun kv => kv.2)).getD
    "application/octet-stream"

/-- Route `POST /files/` (`create_empty` in `file_router.py`): query parameters
`parent_id` and `name`; no request body.  It creates an empty file via
`create_empty_file` with the MIME type derived from the name's extension,
reified to the provider call issued. -/
def routeCreateEmpty (parent_id name : String) : DriveCall :=
  FileManager.create_empty_file name (extMime name) (some parent_id)

/-- The path template of the single POST route on the file router (the router
prefix is `/files`). -/
def fileRouterPostPath : String := "/"

/-!
Model of `src/utils/crypt.py`.  `CriptDict.encrypt` is
`Fernet(key).encrypt(json.dumps(obj).encode())` and `CriptDict.decrypt` is
`json.loads(Fernet(key).decrypt(s).decode())`.  The Fernet primitive is an
external library, kept abstract as a key-indexed pair of total encryption and
partial decryption maps.  `json.dumps` for a `Dict[str, str]` is modelled
concretely below (default separators `", "` and `": "`, `ensure_ascii=True`
escaping, insertion order preserved), and `json.loads` is modelled by a
parser covering the sublanguage `json.dumps` produces for such dictionaries
(an object of string members, with arbitrary interleaved whitespace).
-/

/-- Lowercase hexadecimal digit for a value below 16. -/
def hexDigit (n : Nat) : Char :=
  if n < 10 then Char.ofNat (48 + n) else Char.ofNat (87 + n)

/-- Four-digit lowercase hexadecimal rendering of a code unit, as in Python's
`\uXXXX` escapes. -/
def toHex4 (n : Nat) : List Char :=
  [hexDigit (n / 4096 % 16), hexDigit (n / 256 % 16), hexDigit (n / 16 % 16),
   hexDigit (n % 16)]

/-- Numeric value of one hexadecimal digit character. -/
def hexVal (c : Char) : Option Nat :=
  if 48 ≤ c.toNat ∧ c.toNat ≤ 57 then some (c.toNat - 48)
  else if 97 ≤ c.toNat ∧ c.toNat ≤ 102 then some (c.toNat - 87)
  else if 65 ≤ c.toNat ∧ c.toNat ≤ 70 then some (c.toNat - 55)
  else none

/-- Numeric value of a four-digit hexadecimal escape. -/
def hexVal4 (a b c d : Char) : Option Nat :=
  match hexVal a, hexVal b, hexVal c, hexVal d with
  | some x, some y, some z, some w => some (((x * 16 + y) * 16 + z) * 16 + w)
  | _, _, _, _ => none

/-- Left and right curly brace characters (JSON object delimiters). -/
def lbrace : Char := Char.ofNat 123

/-- Right curly brace character. -/
def rbrace : Char := Char.ofNat 125

/-- Escaping of one character by `json.dumps` with `ensure_ascii=True`:
quote, backslash and the five short control escapes get two-character escapes;
printable ASCII is kept verbatim; every other scalar value becomes `\uXXXX`
(a surrogate pair for values beyond the basic multilingual plane). -/
def escapeChar (c : Char) : List Char :=
  if c = Char.ofNat 34 then [Char.ofNat 92, Char.ofNat 34]
  else if c = Char.ofNat 92 then [Char.ofNat 92, Char.ofNat 92]
  else if c = Char.ofNat 8 then [Char.ofNat 92, Char.ofNat 98]
  else if c = Char.ofNat 12 then [Char.ofNat 92, Char.ofNat 102]
  else if c = Char.ofNat 10 then [Char.ofNat 92, Char.ofNat 110]
  else if c = Char.ofNat 13 then [Char.ofNat 92, Char.ofNat 114]
  else if c = Char.ofNat 9 then [Char.ofNat 92, Char.ofNat 116]
  else if 32 ≤ c.toNat ∧ c.toNat ≤ 126 then [c]
  else if c.toNat < 65536 then Char.ofNat 92 :: Char.ofNat 117 :: toHex4 c.toNat
  else
    Char.ofNat 92 :: Char.ofNat 117 :: toHex4 (55296 + (c.toNat - 65536) / 1024) ++
      Char.ofNat 92 :: Char.ofNat 117 :: toHex4 (56320 + (c.toNat - 65536) % 1024)

/-- Escaping of a character sequence, character by character. -/
def escapeList : List Char → List Char
  | [] => []
  | c :: r => escapeChar c ++ escapeList r

/-- One-character short escapes accepted after a backslash by the JSON string
grammar (`\uXXXX` is handled separately). -/
def unescapeChar (e : Char) : Option Char :=
  if e = Char.ofNat 34 then some (Char.ofNat 34)
  else if e = Char.ofNat 92 then some (Char.ofNat 92)
  else if e = Char.ofNat 47 then some (Char.ofNat 47)
  else if e = Char.ofNat 98 then some (Char.ofNat 8)
  else if e = Char.ofNat 102 then some (Char.ofNat 12)
  else if e = Char.ofNat 110 then some (Char.ofNat 10)
  else if e = Char.ofNat 114 then some (Char.ofNat 13)
  else if e = Char.ofNat 116 then some (Char.ofNat 9)
  else none

/-- Prepend a decoded UTF-16 code unit to the unit part of a parse result. -/
def pushUnit (u : Nat) : Option (List Nat × List Char) → Option (List Nat × List Char)
  | some (s, r) => some (u :: s, r)
  | none => none

/-- Body of a JSON string literal (the opening quote already consumed),
decoded to the sequence of UTF-16 code units it denotes: literal characters
and short escapes contribute their scalar value, each `\uXXXX` contributes its
code unit; decoding stops at the closing quote. -/
def parseStringBody (l : List Char) : Option (List Nat × List Char) :=
  match l with
  | [] => none
  | c :: r =>
    if c = Char.ofNat 34 then some ([], r)
    else if c = Char.ofNat 92 then
      match r with
      | [] => none
      | e :: r2 =>
        if e = Char.ofNat 117 then
          match r2 with
          | a :: b :: c3 :: d :: r3 =>
            (match hexVal4 a b c3 d with
             | some h => pushUnit h (parseStringBody r3)
             | none => none)
          | _ => none
        else
          match unescapeChar e with
          | some ch => pushUnit ch.toNat (parseStringBody r2)
          | none => none
    else pushUnit c.toNat (parseStringBody r)

/-- Recombination of a UTF-16 code-unit sequence into characters: a high
surrogate must be followed by a low surrogate (a lone surrogate is rejected —
`json.dumps` never emits one for a sequence of Unicode scalar values), any
other unit stands for itself. -/
def unitsToChars : List Nat → Option (List Char)
  | [] => some []
  | u :: r =>
    if 55296 ≤ u ∧ u < 56320 then
      match r with
      | [] => none
      | u2 :: r2 =>
        if 56320 ≤ u2 ∧ u2 < 57344 then
          match unitsToChars r2 with
          | some cs => some (Char.ofNat (65536 + (u - 55296) * 1024 + (u2 - 56320)) :: cs)
          | none => none
        else none
    else if 56320 ≤ u ∧ u < 57344 then none
    else
      match unitsToChars r with
      | some cs => some (Char.ofNat u :: cs)
      | none => none

/-- UTF-16 code units of one character (the encoding `json.dumps` escapes
target). -/
def charUnits (c : Char) : List Nat :=
  if c.toNat < 65536 then [c.toNat]
  else [55296 + (c.toNat - 65536) / 1024, 56320 + (c.toNat - 65536) % 1024]

/-- UTF-16 code units of a character sequence. -/
def unitsOf : List Char → List Nat
  | [] => []
  | c :: r => charUnits c ++ unitsOf r

/-- JSON insignificant whitespace. -/
def isJsonWs (c : Char) : Bool :=
  c = Char.ofNat 32 || c = Char.ofNat 9 || c = Char.ofNat 10 || c = Char.ofNat 13

/-- Skip insignificant whitespace. -/
def skipWs (l : List Char) : List Char := l.dropWhile isJsonWs

/-- A JSON string literal: an opening quote, a body decoded to code units,
recombined into the denoted character sequence. -/
def parseJString (l : List Char) : Option (List Char × List Char) :=
  match l with
  | [] => none
  | c :: r =>
    if c = Char.ofNat 34 then
      match parseStringBody r with
      | some (units, rest) =>
        (match unitsToChars units with
         | some cs => some (cs, rest)
         | none => none)
      | none => none
    else none

/-- One `"key": "value"` member of a JSON object of strings. -/
def parsePair (l : List Char) : Option ((String × String) × List Char) :=
  match parseJString (skipWs l) with
  | none => none
  | some (k, r1) =>
    match skipWs r1 with
    | [] => none
    | c :: r2 =>
      if c = Char.ofNat 58 then
        match parseJString (skipWs r2) with
        | none => none
        | some (v, r3) => some ((String.mk k, String.mk v), r3)
      else none

/-- Remaining members of a JSON object after the first one: either a closing
brace, or a comma followed by another member.  `fuel` bounds the number of
members and makes the recursion structural. -/
def parseMembersRest : Nat → List (String × String) → List Char →
    Option (List (String × String) × List Char)
  | 0, _, _ => none
  | fuel + 1, acc, l =>
    match skipWs l with
    | [] => none
    | c :: r =>
      if c = rbrace then some (acc.reverse, r)
      else if c = Char.ofNat 44 then
        match parsePair r with
        | none => none
        | some (kv, r2) => parseMembersRest fuel (kv :: acc) r2
      else none

/-- A JSON object all of whose members are string-valued. -/
def parseObj (fuel : Nat) (l : List Char) : Option (List (String × String) × List Char) :=
  match skipWs l with
  | [] => none
  | c :: r =>
    if c = lbrace then
      match skipWs r with
      | [] => none
      | c2 :: r2 =>
        if c2 = rbrace then some ([], r2)
        else
          match parsePair (c2 :: r2) with
          | none => none
          | some (kv, r3) => parseMembersRest fuel [kv] r3
    else none

/-- Model of `json.loads` on the sublanguage of objects with string members:
parse one object and require only whitespace afterwards. -/
def loadsDict (s : String) : Option (List (String × String)) :=
  match parseObj (s.data.length + 1) s.data with
  | some (d, r) => if skipWs r = [] then some d else none
  | none => none

/-- Serialization of one string as a JSON string literal. -/
def serializeJString (s : String) : List Char :=
  Char.ofNat 34 :: escapeList s.data ++ [Char.ofNat 34]

/-- Serialization of one member with Python's default `": "` separator. -/
def serializePair (kv : String × String) : List Char :=
  serializeJString kv.1 ++ Char.ofNat 58 :: Char.ofNat 32 :: serializeJString kv.2

/-- Serialization of the members after the first, each preceded by the default
`", "` separator. -/
def serializeMembersRest : List (String × String) → List Char
  | [] => []
  | kv :: rest => Char.ofNat 44 :: Char.ofNat 32 :: serializePair kv ++ serializeMembersRest rest

/-- Serialization of all members of an object. -/
def serializeMembers : List (String × String) → List Char
  | [] => []
  | kv :: rest => serializePair kv ++ serializeMembersRest rest

/-- Model of `json.dumps` for a `Dict[str, str]` (insertion order preserved,
default separators, `ensure_ascii=True`). -/
def dumps (d : List (String × String)) : String :=
  String.mk (lbrace :: serializeMembers d ++ [rbrace])

/-- The Fernet symmetric primitive of the `cryptography` library, abstract: a
total encryption map and a partial decryption map, both indexed by the key.
The library's contract is that decryption under the same key undoes
encryption; theorems take that as an explicit hypothesis. -/
structure FernetModel where
  enc : String → String → String
  dec : String → String → Option String

/-- `CriptDict.encrypt` from `src/utils/crypt.py`:
`Fernet(key).encrypt(json.dumps(obj).encode('utf-8'))`. -/
def CriptDict.encrypt (f : FernetModel) (obj : List (String × String)) (key : String) : String :=
  f.enc key (dumps obj)

/-- `CriptDict.decrypt` from `src/utils/crypt.py`:
`json.loads(Fernet(key).decrypt(s).decode('utf-8'))`; a Fernet rejection
raises `InvalidToken`, malformed JSON raises `JSONDecodeError`, and neither is
caught anywhere in the repository. -/
def CriptDict.decrypt (f : FernetModel) (s : String) (key : String) :
    Except PyExc (List (String × String)) :=
  match f.dec key s with
  | none => .error .invalidToken
  | some data =>
    match loadsDict data with
    | none => .error .jsonDecodeError
    | some d => .ok d

/-- The `service_account_info` dictionary built by `verify_credentials`. -/
structure ServiceAccountInfo where
  account_type : String
  project_id : String
  private_key_id : String
  private_key : String
  client_email : String
  client_id : Option String
  auth_uri : String
  token_uri : String
  auth_provider_x509_cert_url : String
  client_x509_cert_url : String
  universe_domain : String
deriving DecidableEq, Repr

/-- Lookup in the decrypted credential dictionary (`credential.get(k)`). -/
def credGet (credential : List (String × String)) (k : String) : Option String :=
  (credential.find? (fun kv => kv.1 == k)).map (fun kv => kv.2)

/-- `verify_credentials` from `config_service_manager.py`: a missing `token`
header raises `NotAuthenticatedException`; an unset or empty `FERNET_API_KEY`
environment variable raises the configuration `InternalServerErrorException`;
then `CriptDict.decrypt` runs with no handler, so a decryption or JSON
failure propagates uncaught; on success the service-account dictionary is
assembled from the decrypted bundle. -/
def verify_credentials (f : FernetModel) (env_fernet_key : Option String)
    (token : Option String) : Except PyExc ServiceAccountInfo :=
  match token with
  | none => .error NotAuthenticatedException
  | some t =>
    let fernet_api_key := env_fernet_key.getD ""
    if fernet_api_key = "" then
      .error (InternalServerErrorException "Fernet API key is not configured." none)
    else
      match CriptDict.decrypt f t fernet_api_key with
      | .error e => .error e
      | .ok credential =>
        .ok ⟨"service_account",
             (credGet credential "projectId").getD "",
             (credGet credential "privateKeyId").getD "",
             (credGet credential "privateKey").getD "",
             (credGet credential "clientEmail").getD "",
             credGet credential "clientId",
             "https://accounts.google.com/o/oauth2/auth",
             "https://oauth2.googleapis.com/token",
             "https://www.googleapis.com/oauth2/v1/certs",
             (credGet credential "clientX509CertUrl").getD "",
             "googleapis.com"⟩

/-- Response an HTTP caller observes for a handler or dependency outcome:
`none` for success, otherwise the status code and, when the exception is a
FastAPI `HTTPException`, its detail envelope (any other uncaught exception
becomes a bare 500 with no envelope). -/
def fastApiResponse {α : Type} : Except PyExc α → Option (Nat × Option Envelope)
  | .ok _ => none
  | .error (.http s d) => some (s, some d)
  | .error _ => some (500, none)

/-! Helper lemmas. -/

theorem list_find_first {α : Type} (p : α → Bool) :
    ∀ (l : List α) (i : Nat) (h : i < l.length),
      p (l.get ⟨i, h⟩) = true →
      (∀ j (hj : j < i), p (l.get ⟨j, Nat.lt_trans hj h⟩) = false) →
      l.find? p = some (l.get ⟨i, h⟩) := by
  intro l
  induction l with
  | nil => intro i h; simp at h
  | cons x xs ih =>
    intro i h hp hprev
    cases i with
    | zero =>
      simp only [List.get] at hp ⊢
      simp [List.find?, hp]
    | succ n =>
      have hx : p x = false := hprev 0 (Nat.succ_pos n)
      simp only [List.get] at hp ⊢
      rw [List.find?, hx]
      exact ih n (Nat.lt_of_succ_lt_succ h) hp
        (fun j hj => hprev (j + 1) (Nat.succ_lt_succ hj))

theorem exceptMap_ok_of_forall {α : Type} (f : RawRecord → Except PyExc α) :
    ∀ rs : List RawRecord, (∀ r ∈ rs, ∃ a, f r = .ok a) →
      ∃ as, exceptMap f rs = .ok as ∧ as.length = rs.length := by
  intro rs
  induction rs with
  | nil => intro _; exact ⟨[], rfl, rfl⟩
  | cons r rs ih =>
    intro hall
    obtain ⟨a, ha⟩ := hall r (List.mem_cons_self r rs)
    obtain ⟨as, has, hlen⟩ := ih (fun x hx => hall x (List.mem_cons_of_mem r hx))
    exact ⟨a :: as, by simp [exceptMap, ha, has], by simp [hlen]⟩

theorem exceptMap_error_mem {α : Type} (f : RawRecord → Except PyExc α) :
    ∀ (rs : List RawRecord) (e : PyExc), exceptMap f rs = .error e →
      ∃ r ∈ rs, f r = .error e := by
  intro rs
  induction rs with
  | nil => intro e h; simp [exceptMap] at h
  | cons r rs ih =>
    intro e h
    rw [exceptMap] at h
    cases hr : f r with
    | error e2 =>
      rw [hr] at h
      exact ⟨r, List.mem_cons_self r rs, by cases h; exact hr⟩
    | ok a =>
      rw [hr] at h
      cases hrs : exceptMap f rs with
      | error e2 =>
        rw [hrs] at h
        cases h
        obtain ⟨r2, hr2, hfr2⟩ := ih e hrs
        exact ⟨r2, List.mem_cons_of_mem r hr2, hfr2⟩
      | ok as => rw [hrs] at h; cases h

theorem extMime_values : ∀ kv ∈ mimeTypeMap, kv.2 ≠ "" := by decide

theorem extMime_ne_empty (name : String) : extMime name ≠ "" := by
  unfold extMime
  simp only []
  cases h : mimeTypeMap.find? (fun kv =>
      kv.1 == String.mk ((lastSegAux [] name.data).map Char.toLower)) with
  | none => simp
  | some kv =>
    have hmem := List.mem_of_find?_eq_some h
    simpa using extMime_values kv hmem

theorem string_mk_data : ∀ s : String, String.mk s.data = s := by
  intro s; cases s; rfl

/-! JSON round-trip lemmas for the credential codec. -/

theorem hexVal_hexDigit : ∀ k : Nat, k < 16 → hexVal (hexDigit k) = some k := by
  decide

theorem hexVal4_toHex4 (n : Nat) (h : n < 65536) :
    hexVal4 (hexDigit (n / 4096 % 16)) (hexDigit (n / 256 % 16))
      (hexDigit (n / 16 % 16)) (hexDigit (n % 16)) = some n := by
  have h1 := hexVal_hexDigit (n / 4096 % 16) (Nat.mod_lt _ (by norm_num))
  have h2 := hexVal_hexDigit (n / 256 % 16) (Nat.mod_lt _ (by norm_num))
  have h3 := hexVal_hexDigit (n / 16 % 16) (Nat.mod_lt _ (by norm_num))
  have h4 := hexVal_hexDigit (n % 16) (Nat.mod_lt _ (by norm_num))
  simp only [hexVal4, h1, h2, h3, h4, Option.some.injEq]
  omega

theorem psb_quote (l : List Char) :
    parseStringBody (Char.ofNat 34 :: l) = some ([], l) := by
  rw [parseStringBody.eq_def]
  simp

theorem psb_lit (c : Char) (h34 : ¬(c = Char.ofNat 34)) (h92 : ¬(c = Char.ofNat 92))
    (l : List Char) : parseStringBody (c :: l) = pushUnit c.toNat (parseStringBody l) := by
  rw [parseStringBody.eq_def]
  simp [h34, h92]

theorem psb_esc_pair (e ch : Char) (he : unescapeChar e = some ch)
    (hu : ¬(e = Char.ofNat 117)) (l : List Char) :
    parseStringBody (Char.ofNat 92 :: e :: l) = pushUnit ch.toNat (parseStringBody l) := by
  have d1 : ¬(Char.ofNat 92 = Char.ofNat 34) := by decide
  rw [parseStringBody.eq_def]
  simp [d1, hu, he]

theorem psb_u (a b c3 d : Char) (n : Nat) (hv : hexVal4 a b c3 d = some n)
    (l : List Char) :
    parseStringBody (Char.ofNat 92 :: Char.ofNat 117 :: a :: b :: c3 :: d :: l) =
      pushUnit n (parseStringBody l) := by
  have d1 : ¬(Char.ofNat 92 = Char.ofNat 34) := by decide
  rw [parseStringBody.eq_def]
  simp [d1, hv]

theorem char_toNat_valid (c : Char) :
    c.toNat < 55296 ∨ (57343 < c.toNat ∧ c.toNat < 1114112) := c.valid

theorem psb_escapeList (s : List Char) : ∀ rest : List Char,
    parseStringBody (escapeList s ++ Char.ofNat 34 :: rest) = some (unitsOf s, rest) := by
  induction s with
  | nil =>
    intro rest
    simpa [escapeList, unitsOf] using psb_quote rest
  | cons c s ih =>
    intro rest
    rw [escapeList, List.append_assoc, unitsOf]
    have htail := ih rest
    by_cases h1 : c = Char.ofNat 34
    · subst h1
      rw [show escapeChar (Char.ofNat 34) = [Char.ofNat 92, Char.ofNat 34] from by decide]
      rw [show ([Char.ofNat 92, Char.ofNat 34] : List Char) ++
            (escapeList s ++ Char.ofNat 34 :: rest) =
          Char.ofNat 92 :: Char.ofNat 34 ::
            (escapeList s ++ Char.ofNat 34 :: rest) from rfl]
      rw [psb_esc_pair (Char.ofNat 34) (Char.ofNat 34) (by decide) (by decide), htail]
      rw [show charUnits (Char.ofNat 34) = [(Char.ofNat 34).toNat] from by decide]
      rfl
    · by_cases h2 : c = Char.ofNat 92
      · subst h2
        rw [show escapeChar (Char.ofNat 92) = [Char.ofNat 92, Char.ofNat 92] from by decide]
        rw [show ([Char.ofNat 92, Char.ofNat 92] : List Char) ++
              (escapeList s ++ Char.ofNat 34 :: rest) =
            Char.ofNat 92 :: Char.ofNat 92 ::
              (escapeList s ++ Char.ofNat 34 :: rest) from rfl]
        rw [psb_esc_pair (Char.ofNat 92) (Char.ofNat 92) (by decide) (by decide), htail]
        rw [show charUnits (Char.ofNat 92) = [(Char.ofNat 92).toNat] from by decide]
        rfl
      · by_cases h3 : c = Char.ofNat 8
        · subst h3
          rw [show escapeChar (Char.ofNat 8) = [Char.ofNat 92, Char.ofNat 98] from by decide]
          rw [show ([Char.ofNat 92, Char.ofNat 98] : List Char) ++
                (escapeList s ++ Char.ofNat 34 :: rest) =
              Char.ofNat 92 :: Char.ofNat 98 ::
                (escapeList s ++ Char.ofNat 34 :: rest) from rfl]
          rw [psb_esc_pair (Char.ofNat 98) (Char.ofNat 8) (by decide) (by decide), htail]
          rw [show charUnits (Char.ofNat 8) = [(Char.ofNat 8).toNat] from by decide]
          rfl
        · by_cases h4 : c = Char.ofNat 12
          · subst h4
            rw [show escapeChar (Char.ofNat 12) = [Char.ofNat 92, Char.ofNat 102] from by decide]
            rw [show ([Char.ofNat 92, Char.ofNat 102] : List Char) ++
                  (escapeList s ++ Char.ofNat 34 :: rest) =
                Char.ofNat 92 :: Char.ofNat 102 ::
                  (escapeList s ++ Char.ofNat 34 :: rest) from rfl]
            rw [psb_esc_pair (Char.ofNat 102) (Char.ofNat 12) (by decide) (by decide), htail]
            rw [show charUnits (Char.ofNat 12) = [(Char.ofNat 12).toNat] from by decide]
            rfl
          · by_cases h5 : c = Char.ofNat 10
            · subst h5
              rw [show escapeChar (Char.ofNat 10) = [Char.ofNat 92, Char.ofNat 110] from by decide]
              rw [show ([Char.ofNat 92, Char.ofNat 110] : List Char) ++
                    (escapeList s ++ Char.ofNat 34 :: rest) =
                  Char.ofNat 92 :: Char.ofNat 110 ::
                    (escapeList s ++ Char.ofNat 34 :: rest) from rfl]
              rw [psb_esc_pair (Char.ofNat 110) (Char.ofNat 10) (by decide) (by decide), htail]
              rw [show charUnits (Char.ofNat 10) = [(Char.ofNat 10).toNat] from by decide]
              rfl
            · by_cases h6 : c = Char.ofNat 13
              · subst h6
                rw [show escapeChar (Char.ofNat 13) = [Char.ofNat 92, Char.ofNat 114] from by decide]
                rw [show ([Char.ofNat 92, Char.ofNat 114] : List Char) ++
                      (escapeList s ++ Char.ofNat 34 :: rest) =
                    Char.ofNat 92 :: Char.ofNat 114 ::
                      (escapeList s ++ Char.ofNat 34 :: rest) from rfl]
                rw [psb_esc_pair (Char.ofNat 114) (Char.ofNat 13) (by decide) (by decide), htail]
                rw [show charUnits (Char.ofNat 13) = [(Char.ofNat 13).toNat] from by decide]
                rfl
              · by_cases h7 : c = Char.ofNat 9
                · subst h7
                  rw [show escapeChar (Char.ofNat 9) = [Char.ofNat 92, Char.ofNat 116] from by decide]
                  rw [show ([Char.ofNat 92, Char.ofNat 116] : List Char) ++
                        (escapeList s ++ Char.ofNat 34 :: rest) =
                      Char.ofNat 92 :: Char.ofNat 116 ::
                        (escapeList s ++ Char.ofNat 34 :: rest) from rfl]
                  rw [psb_esc_pair (Char.ofNat 116) (Char.ofNat 9) (by decide) (by decide), htail]
                  rw [show charUnits (Char.ofNat 9) = [(Char.ofNat 9).toNat] from by decide]
                  rfl
                · by_cases h8 : 32 ≤ c.toNat ∧ c.toNat ≤ 126
                  · rw [show escapeChar c = [c] from by
                      rw [escapeChar, if_neg h1, if_neg h2, if_neg h3, if_neg h4,
                          if_neg h5, if_neg h6, if_neg h7, if_pos h8]]
                    rw [show ([c] : List Char) ++ (escapeList s ++ Char.ofNat 34 :: rest) =
                        c :: (escapeList s ++ Char.ofNat 34 :: rest) from rfl]
                    rw [psb_lit c h1 h2, htail]
                    rw [show charUnits c = [c.toNat] from by
                      rw [charUnits, if_pos (by omega)]]
                    rfl
                  · by_cases h9 : c.toNat < 65536
                    · rw [show escapeChar c =
                          Char.ofNat 92 :: Char.ofNat 117 :: toHex4 c.toNat from by
                        rw [escapeChar, if_neg h1, if_neg h2, if_neg h3, if_neg h4,
                            if_neg h5, if_neg h6, if_neg h7, if_neg h8, if_pos h9]]
                      rw [toHex4]
                      rw [show (Char.ofNat 92 :: Char.ofNat 117 ::
                            [hexDigit (c.toNat / 4096 % 16), hexDigit (c.toNat / 256 % 16),
                             hexDigit (c.toNat / 16 % 16), hexDigit (c.toNat % 16)]) ++
                            (escapeList s ++ Char.ofNat 34 :: rest) =
                          Char.ofNat 92 :: Char.ofNat 117 ::
                            hexDigit (c.toNat / 4096 % 16) :: hexDigit (c.toNat / 256 % 16) ::
                            hexDigit (c.toNat / 16 % 16) :: hexDigit (c.toNat % 16) ::
                            (escapeList s ++ Char.ofNat 34 :: rest) from rfl]
                      rw [psb_u _ _ _ _ c.toNat (hexVal4_toHex4 c.toNat h9), htail]
                      rw [show charUnits c = [c.toNat] from by rw [charUnits, if_pos h9]]
                      rfl
                    · have hval := char_toNat_valid c
                      have hhi : c.toNat - 65536 < 1048576 := by omega
                      rw [show escapeChar c =
                            Char.ofNat 92 :: Char.ofNat 117 ::
                              toHex4 (55296 + (c.toNat - 65536) / 1024) ++
                            Char.ofNat 92 :: Char.ofNat 117 ::
                              toHex4 (56320 + (c.toNat - 65536) % 1024) from by
                        rw [escapeChar, if_neg h1, if_neg h2, if_neg h3, if_neg h4,
                            if_neg h5, if_neg h6, if_neg h7, if_neg h8, if_neg h9]]
                      rw [toHex4, toHex4]
                      have hq : (55296 + (c.toNat - 65536) / 1024) < 65536 := by omega
                      have hr2 : (56320 + (c.toNat - 65536) % 1024) < 65536 := by
                        have := Nat.mod_lt (c.toNat - 65536) (show 0 < 1024 by norm_num)
                        omega
                      rw [show ((Char.ofNat 92 :: Char.ofNat 117 ::
                            [hexDigit ((55296 + (c.toNat - 65536) / 1024) / 4096 % 16),
                             hexDigit ((55296 + (c.toNat - 65536) / 1024) / 256 % 16),
                             hexDigit ((55296 + (c.toNat - 65536) / 1024) / 16 % 16),
                             hexDigit ((55296 + (c.toNat - 65536) / 1024) % 16)]) ++
                            Char.ofNat 92 :: Char.ofNat 117 ::
                            [hexDigit ((56320 + (c.toNat - 65536) % 1024) / 4096 % 16),
                             hexDigit ((56320 + (c.toNat - 65536) % 1024) / 256 % 16),
                             hexDigit ((56320 + (c.toNat - 65536) % 1024) / 16 % 16),
                             hexDigit ((56320 + (c.toNat - 65536) % 1024) % 16)]) ++
                            (escapeList s ++ Char.ofNat 34 :: rest) =
                          Char.ofNat 92 :: Char.ofNat 117 ::
                            hexDigit ((55296 + (c.toNat - 65536) / 1024) / 4096 % 16) ::
                            hexDigit ((55296 + (c.toNat - 65536) / 1024) / 256 % 16) ::
                            hexDigit ((55296 + (c.toNat - 65536) / 1024) / 16 % 16) ::
                            hexDigit ((55296 + (c.toNat - 65536) / 1024) % 16) ::
                            Char.ofNat 92 :: Char.ofNat 117 ::
                            hexDigit ((56320 + (c.toNat - 65536) % 1024) / 4096 % 16) ::
                            hexDigit ((56320 + (c.toNat - 65536) % 1024) / 256 % 16) ::
                            hexDigit ((56320 + (c.toNat - 65536) % 1024) / 16 % 16) ::
                            hexDigit ((56320 + (c.toNat - 65536) % 1024) % 16) ::
                            (escapeList s ++ Char.ofNat 34 :: rest) from by
                        simp]
                      rw [psb_u _ _ _ _ _ (hexVal4_toHex4 _ hq)]
                      rw [psb_u _ _ _ _ _ (hexVal4_toHex4 _ hr2)]
                      rw [htail]
                      rw [show charUnits c =
                          [55296 + (c.toNat - 65536) / 1024,
                           56320 + (c.toNat - 65536) % 1024] from by
                        rw [charUnits, if_neg h9]]
                      rfl

theorem unitsToChars_unitsOf (s : List Char) : unitsToChars (unitsOf s) = some s := by
  induction s with
  | nil => rfl
  | cons c s ih =>
    rw [unitsOf]
    have hval := char_toNat_valid c
    by_cases h : c.toNat < 65536
    · rw [show charUnits c = [c.toNat] from by rw [charUnits, if_pos h]]
      rw [show ([c.toNat] ++ unitsOf s) = c.toNat :: unitsOf s from rfl]
      rw [unitsToChars.eq_def]
      simp only []
      rw [if_neg (by omega), if_neg (by omega), ih]
      simp [Char.ofNat_toNat]
    · rw [show charUnits c =
          [55296 + (c.toNat - 65536) / 1024, 56320 + (c.toNat - 65536) % 1024] from by
        rw [charUnits, if_neg h]]
      rw [show ([55296 + (c.toNat - 65536) / 1024,
            56320 + (c.toNat - 65536) % 1024] ++ unitsOf s) =
          (55296 + (c.toNat - 65536) / 1024) ::
            (56320 + (c.toNat - 65536) % 1024) :: unitsOf s from rfl]
      have hmod := Nat.mod_lt (c.toNat - 65536) (show 0 < 1024 by norm_num)
      have hdiv : (c.toNat - 65536) / 1024 < 1024 := by omega
      rw [unitsToChars.eq_def]
      simp only []
      rw [if_pos (by omega), if_pos (by omega), ih]
      have hc : 65536 + (c.toNat - 65536) / 1024 * 1024 +
          (c.toNat - 65536) % 1024 = c.toNat := by omega
      simp [hc, Char.ofNat_toNat]

theorem parseJString_serialize (s : String) (rest : List Char) :
    parseJString (serializeJString s ++ rest) = some (s.data, rest) := by
  rw [serializeJString]
  rw [show (Char.ofNat 34 :: escapeList s.data ++ [Char.ofNat 34]) ++ rest =
      Char.ofNat 34 :: (escapeList s.data ++ Char.ofNat 34 :: rest) from by simp]
  rw [parseJString.eq_def]
  simp [psb_escapeList s.data rest, unitsToChars_unitsOf]

theorem skipWs_not (c : Char) (l : List Char) (h : isJsonWs c = false) :
    skipWs (c :: l) = c :: l := by
  simp [skipWs, List.dropWhile, h]

theorem skipWs_ws (c : Char) (l : List Char) (h : isJsonWs c = true) :
    skipWs (c :: l) = skipWs l := by
  simp [skipWs, List.dropWhile, h]

theorem parsePair_ws (c : Char) (h : isJsonWs c = true) (l : List Char) :
    parsePair (c :: l) = parsePair l := by
  rw [parsePair.eq_def, parsePair.eq_def, skipWs_ws c l h]

theorem parsePair_serialize (kv : String × String) (rest : List Char) :
    parsePair (serializePair kv ++ rest) = some (kv, rest) := by
  rcases kv with ⟨k, v⟩
  rw [serializePair]
  rw [show (serializeJString k ++
        Char.ofNat 58 :: Char.ofNat 32 :: serializeJString v) ++ rest =
      serializeJString k ++
        (Char.ofNat 58 :: Char.ofNat 32 :: (serializeJString v ++ rest)) from by simp]
  rw [parsePair.eq_def]
  rw [show skipWs (serializeJString k ++
        (Char.ofNat 58 :: Char.ofNat 32 :: (serializeJString v ++ rest))) =
      serializeJString k ++
        (Char.ofNat 58 :: Char.ofNat 32 :: (serializeJString v ++ rest)) from by
    rw [serializeJString]
    rw [show (Char.ofNat 34 :: escapeList k.data ++ [Char.ofNat 34]) ++
          (Char.ofNat 58 :: Char.ofNat 32 :: (serializeJString v ++ rest)) =
        Char.ofNat 34 :: (escapeList k.data ++ [Char.ofNat 34] ++
          (Char.ofNat 58 :: Char.ofNat 32 :: (serializeJString v ++ rest))) from by simp]
    exact skipWs_not _ _ (by decide)]
  rw [parseJString_serialize k]
  simp only []
  rw [skipWs_not _ _ (by decide)]
  simp only [if_true]
  rw [skipWs_ws _ _ (by decide)]
  rw [show skipWs (serializeJString v ++ rest) = serializeJString v ++ rest from by
    rw [serializeJString]
    rw [show (Char.ofNat 34 :: escapeList v.data ++ [Char.ofNat 34]) ++ rest =
        Char.ofNat 34 :: (escapeList v.data ++ [Char.ofNat 34] ++ rest) from by simp]
    exact skipWs_not _ _ (by decide)]
  rw [parseJString_serialize v]

theorem pmr_serialize : ∀ (d : List (String × String)) (fuel : Nat)
    (acc : List (String × String)) (rest : List Char), d.length < fuel →
    parseMembersRest fuel acc (serializeMembersRest d ++ rbrace :: rest) =
      some (acc.reverse ++ d, rest) := by
  intro d
  induction d with
  | nil =>
    intro fuel acc rest hf
    cases fuel with
    | zero => omega
    | succ f =>
      rw [serializeMembersRest]
      rw [show ([] : List Char) ++ rbrace :: rest = rbrace :: rest from rfl]
      rw [parseMembersRest]
      rw [skipWs_not _ _ (by decide)]
      simp
  | cons kv d ih =>
    intro fuel acc rest hf
    cases fuel with
    | zero => simp at hf
    | succ f =>
      rw [serializeMembersRest]
      rw [show (Char.ofNat 44 :: Char.ofNat 32 :: serializePair kv ++
            serializeMembersRest d) ++ rbrace :: rest =
          Char.ofNat 44 :: Char.ofNat 32 ::
            (serializePair kv ++ (serializeMembersRest d ++ rbrace :: rest)) from by simp]
      rw [parseMembersRest]
      rw [skipWs_not _ _ (by decide)]
      simp only []
      rw [if_neg (by decide : ¬(Char.ofNat 44 = rbrace))]
      simp only [if_true]
      rw [parsePair_ws _ (by decide)]
      rw [parsePair_serialize kv]
      simp only []
      rw [ih f (kv :: acc) rest (by simpa using Nat.lt_of_succ_lt_succ hf)]
      simp

theorem parseObj_serialize (d : List (String × String)) (fuel : Nat)
    (rest : List Char) (hf : d.length ≤ fuel) :
    parseObj fuel (lbrace :: serializeMembers d ++ rbrace :: rest) = some (d, rest) := by
  rw [parseObj]
  rw [show lbrace :: serializeMembers d ++ rbrace :: rest =
      lbrace :: (serializeMembers d ++ rbrace :: rest) from rfl]
  rw [skipWs_not _ _ (by decide)]
  simp only [if_true]
  cases d with
  | nil =>
    rw [serializeMembers]
    rw [show ([] : List Char) ++ rbrace :: rest = rbrace :: rest from rfl]
    rw [skipWs_not _ _ (by decide)]
    simp
  | cons kv d2 =>
    have hexp : serializePair kv ++ (serializeMembersRest d2 ++ rbrace :: rest) =
        Char.ofNat 34 :: (escapeList kv.1.data ++ [Char.ofNat 34] ++
          (Char.ofNat 58 :: Char.ofNat 32 :: serializeJString kv.2 ++
            (serializeMembersRest d2 ++ rbrace :: rest))) := by
      rw [serializePair, serializeJString]
      simp
    rw [serializeMembers]
    rw [show (serializePair kv ++ serializeMembersRest d2) ++ rbrace :: rest =
        serializePair kv ++ (serializeMembersRest d2 ++ rbrace :: rest) from by simp]
    rw [hexp]
    rw [skipWs_not _ _ (by decide)]
    simp only []
    rw [if_neg (by decide : ¬(Char.ofNat 34 = rbrace))]
    rw [← hexp]
    rw [parsePair_serialize kv]
    simp only []
    rw [pmr_serialize d2 fuel [kv] rest (by
      have h2 : d2.length < d2.length + 1 := Nat.lt_succ_self d2.length
      have h3 : d2.length + 1 ≤ fuel := by simpa using hf
      omega)]
    simp

theorem serializeJString_len (s : String) :
    2 ≤ (serializeJString s).length := by
  rw [serializeJString]
  simp

theorem serializePair_len (kv : String × String) :
    1 ≤ (serializePair kv).length := by
  rw [serializePair]
  simp only [List.length_append, List.length_cons]
  omega

theorem serializeMembersRest_len (d : List (String × String)) :
    d.length ≤ (serializeMembersRest d).length := by
  induction d with
  | nil => simp [serializeMembersRest]
  | cons kv d ih =>
    rw [serializeMembersRest]
    simp only [List.length_cons, List.length_append]
    omega

theorem serializeMembers_len (d : List (String × String)) :
    d.length ≤ (serializeMembers d).length := by
  cases d with
  | nil => simp [serializeMembers]
  | cons kv d2 =>
    rw [serializeMembers]
    have h1 := serializePair_len kv
    have h2 := serializeMembersRest_len d2
    simp only [List.length_cons, List.length_append]
    omega

theorem loadsDict_dumps (d : List (String × String)) : loadsDict (dumps d) = some d := by
  rw [loadsDict]
  have hdata : (dumps d).data = lbrace :: serializeMembers d ++ rbrace :: [] := rfl
  rw [hdata]
  have hlen : d.length ≤ (lbrace :: serializeMembers d ++ rbrace :: []).length + 1 := by
    have := serializeMembers_len d
    simp only [List.length_cons, List.length_append]
    omega
  rw [parseObj_serialize d _ [] hlen]
  simp [skipWs]

/-! Claim theorems. -/

/-- Claim C1, counterexample: `upload_file_content` issues a `files().update`
call — it attaches content to an existing item rather than creating a new one
— and passes no `supportsAllDrives` argument, so shared-drive support is not
requested; moreover the file router's POST route lives at `/files/` (not
`/files/{parent_id}`) and issues a metadata-only create with no media body,
its MIME type derived from the file name rather than from any uploaded
content. -/
theorem C1_counterexample :
    (FileManager.upload_file_content "f1" [104] "text/plain").supports = false ∧
    (FileManager.upload_file_content "f1" [104] "text/plain").isUpdate = true ∧
    routeCreateEmpty "fld1" "doc.txt" =
      DriveCall.create ⟨"doc.txt", some "text/plain", some ["fld1"]⟩ none
        FileManager.itemFields false ∧
    fileRouterPostPath = "/" := by
  refine ⟨rfl, rfl, ?_, rfl⟩
  decide

/-- Claim C1, amended: `upload_file_content(id, content, mime_type)` issues a
single `files().update` provider call on the existing item `id` carrying a
resumable media upload of the content with the declared MIME type, with no
body and without requesting shared-drive support; the `POST /files/` route
(query parameters `parent_id`, `name`, no request body) instead issues a
metadata-only `files().create` with no media, whose MIME type is derived from
the name's extension. -/
theorem C1_amended_thm :
    (∀ (id : String) (content : List Nat) (mime : String),
      FileManager.upload_file_content id content mime =
        DriveCall.update id none (some ⟨content, mime, true⟩) none none
          FileManager.itemFields false) ∧
    (∀ pid name : String, pid ≠ "" →
      routeCreateEmpty pid name =
        DriveCall.create ⟨name, some (extMime name), some [pid]⟩ none
          FileManager.itemFields false) := by
  constructor
  · intro id content mime; rfl
  · intro pid name hpid
    unfold routeCreateEmpty FileManager.create_empty_file ArchiveManager.create_call
    simp [truthyStr, hpid, extMime_ne_empty name]

/-- Claim C1, witness for the amended theorem at concrete inputs. -/
theorem C1_witness :
    FileManager.upload_file_content "f9" [1, 2, 3] "application/pdf" =
      DriveCall.update "f9" none (some ⟨[1, 2, 3], "application/pdf", true⟩) none none
        FileManager.itemFields false ∧
    routeCreateEmpty "fldX" "notes.txt" =
      DriveCall.create ⟨"notes.txt", some (extMime "notes.txt"), some ["fldX"]⟩ none
        FileManager.itemFields false :=
  ⟨C1_amended_thm.1 "f9" [1, 2, 3] "application/pdf",
   C1_amended_thm.2 "fldX" "notes.txt" (by decide)⟩

/-- Claim C2: at the controller level `FolderManager.list_files` does return
exactly the files of the page-limited listing whose first parent is the given
folder id, but the route `GET /folders/{id}/files` invokes the non-existent
method `list_files_in_folder`, so on a drive holding exactly one file parented
at `fldA` the route answers the 500 attribute-error envelope instead of the
one-element list the working controller method produces. -/
theorem C2_route_bug :
    routeFolderListFiles
        [⟨some "fileA", some "a.txt", some "txt", some "text/plain", some ["fldA"]⟩]
        "fldA" =
      .error (.http 500 ⟨"An internal server error occurred.", 500,
        some "\x27FolderManager\x27 object has no attribute \x27list_files_in_folder\x27"⟩) ∧
    FolderManager.list_files
        [⟨some "fileA", some "a.txt", some "txt", some "text/plain", some ["fldA"]⟩]
        "fldA" =
      .ok [⟨"fileA", "a.txt", "txt", ["fldA"], "text/plain",
            "https://drive.google.com/file/d/fileA",
            "https://drive.google.com/uc?export=download&id=fileA"⟩] := by
  constructor
  · rfl
  · rfl

/-- Claim C3, counterexample: on an empty drive, `GET /files/{id}` for a
non-existent id does not produce the 404 Not Found envelope — the provider's
`HttpError` is not a FastAPI `HTTPException`, so `handle_exception` wraps it
in the 500 internal-error envelope; likewise delete-then-get ends in that 500,
not in Not Found. -/
theorem C3_counterexample :
    routeGetFile [] "missing" =
      .error (.http 500 ⟨"An internal server error occurred.", 500,
        some "<HttpError 404: File not found: missing>"⟩) ∧
    (PyExc.http 500 ⟨"An internal server error occurred.", 500,
        some "<HttpError 404: File not found: missing>"⟩) ≠
      NotFoundException "File" "missing" ∧
    routeDeleteFile
        [⟨some "f1", some "a.txt", some "txt", some "text/plain", some ["p"]⟩] "f1" =
      .ok ([], "file of id \x27f1\x27 successfully deleted") ∧
    routeGetFile [] "f1" =
      .error (.http 500 ⟨"An internal server error occurred.", 500,
        some "<HttpError 404: File not found: f1>"⟩) := by
  refine ⟨rfl, ?_, rfl, rfl⟩
  decide

/-- Claim C3, amended: for every id the provider reports as non-existent,
`get(id)` propagates the provider's 404 `HttpError`, which the dispatch layer
wraps as the uniform 500 internal-error envelope (not as a Not Found Error);
in particular a successful `delete(id)` followed by `get(id)` yields that same
500 envelope. -/
theorem C3_amended_thm :
    (∀ (d : Drive) (id : String), providerGet d id = none →
      routeGetFile d id =
        .error (InternalServerErrorException "An internal server error occurred."
          (some (pyStr (.providerHttpError 404 ("File not found: " ++ id)))))) ∧
    (∀ (d : Drive) (id : String) (d2 : Drive) (msg : String),
      routeDeleteFile d id = .ok (d2, msg) →
      routeGetFile d2 id =
        .error (InternalServerErrorException "An internal server error occurred."
          (some (pyStr (.providerHttpError 404 ("File not found: " ++ id)))))) := by
  constructor
  · intro d id h
    unfold routeGetFile FileManager.get
    rw [h]
    rfl
  · intro d id d2 msg h
    unfold routeDeleteFile FileManager.delete at h
    cases hg : providerGet d id with
    | none => rw [hg] at h; cases h
    | some r =>
      rw [hg] at h
      cases h
      have hnone : providerGet (List.filter (fun r => !(r.id == some id)) d) id = none := by
        apply List.find?_eq_none.mpr
        intro x hx
        have hmem := List.mem_filter.mp hx
        simpa using hmem.2
      unfold routeGetFile FileManager.get
      rw [hnone]
      rfl

/-- Claim C3, witness for the amended theorem: an empty drive for the first
part, and a one-record drive deleted then read for the second. -/
theorem C3_witness :
    routeGetFile [] "ghost" =
      .error (InternalServerErrorException "An internal server error occurred."
        (some (pyStr (.providerHttpError 404 ("File not found: " ++ "ghost"))))) ∧
    routeGetFile [] "f1" =
      .error (InternalServerErrorException "An internal server error occurred."
        (some (pyStr (.providerHttpError 404 ("File not found: " ++ "f1"))))) :=
  ⟨C3_amended_thm.1 [] "ghost" rfl,
   C3_amended_thm.2
     [⟨some "f1", some "a.txt", some "txt", some "text/plain", some ["p"]⟩]
     "f1" [] ("file of id \x27f1\x27 successfully deleted") rfl⟩

/-- Claim C4, counterexample: with a Fernet oracle that rejects every token
(the undecryptable-token situation) and a configured key, a protected-route
request carrying an invalid bearer token does not get the verbatim 401 Not
Authenticated envelope: the uncaught `InvalidToken` exception surfaces as a
bare 500. -/
theorem C4_counterexample :
    fastApiResponse
        (verify_credentials ⟨fun _ p => p, fun _ _ => none⟩ (some "key") (some "garbage")) =
      some (500, none) ∧
    (some ((500 : Nat), (none : Option Envelope))) ≠
      some (401, some ⟨"User is not authenticated. Please, use the correct credentials.",
        401, none⟩) := by
  refine ⟨rfl, ?_⟩
  decide

/-- Claim C4, amended: a missing bearer token fails with the verbatim 401 Not
Authenticated envelope, and absence (or emptiness) of the operator-configured
decryption secret fails with the distinct 500 configuration envelope; but an
invalid (undecryptable) bearer token raises the uncaught Fernet `InvalidToken`
exception, which surfaces as a bare 500 rather than the 401 envelope. -/
theorem C4_amended_thm :
    (∀ (f : FernetModel) (env : Option String),
      fastApiResponse (verify_credentials f env none) =
        some (401, some ⟨"User is not authenticated. Please, use the correct credentials.",
          401, none⟩)) ∧
    (∀ (f : FernetModel) (t : String),
      fastApiResponse (verify_credentials f none (some t)) =
        some (500, some ⟨"Fernet API key is not configured.", 500, some "N/A"⟩) ∧
      fastApiResponse (verify_credentials f (some "") (some t)) =
        some (500, some ⟨"Fernet API key is not configured.", 500, some "N/A"⟩)) ∧
    (∀ (f : FernetModel) (k t : String), k ≠ "" → f.dec k t = none →
      verify_credentials f (some k) (some t) = .error .invalidToken ∧
      fastApiResponse (verify_credentials f (some k) (some t)) = some (500, none)) := by
  refine ⟨fun f env => rfl, fun f t => ⟨rfl, rfl⟩, fun f k t hk hdec => ?_⟩
  have : verify_credentials f (some k) (some t) = .error .invalidToken := by
    unfold verify_credentials CriptDict.decrypt
    simp [hk, hdec]
  exact ⟨this, by rw [this]; rfl⟩

/-- Claim C4, witness for the amended theorem at concrete inputs. -/
theorem C4_witness :
    fastApiResponse
        (verify_credentials ⟨fun _ p => p, fun _ t => some t⟩ (some "sk") none) =
      some (401, some ⟨"User is not authenticated. Please, use the correct credentials.",
        401, none⟩) ∧
    fastApiResponse
        (verify_credentials ⟨fun _ p => p, fun _ t => some t⟩ none (some "tok")) =
      some (500, some ⟨"Fernet API key is not configured.", 500, some "N/A"⟩) ∧
    verify_credentials ⟨fun _ p => p, fun _ _ => none⟩ (some "sk") (some "tok") =
      .error .invalidToken :=
  ⟨C4_amended_thm.1 ⟨fun _ p => p, fun _ t => some t⟩ (some "sk"),
   (C4_amended_thm.2.1 ⟨fun _ p => p, fun _ t => some t⟩ "tok").1,
   (C4_amended_thm.2.2 ⟨fun _ p => p, fun _ _ => none⟩ "sk" "tok" (by decide) rfl).1⟩

/-- Claim C5: `update(id, name?, newParentId?)` first fetches the item's
current parent set (the hypothesis exposes the fetched record), then issues a
single combined `files().update` call whose body carries the new name exactly
when a name is (truthily) given; exactly when `newParentId` is (truthily)
given the call adds it as parent and removes the comma-join of all
previously-listed parents (the `removeParents` argument being omitted when
that join is empty); and with neither argument the call is still issued, with
an empty body and no parent changes. -/
theorem C5_update :
    ∀ (fields : String) (d : Drive) (id : String) (name np : Option String)
      (item : RawRecord), providerGet d id = some item →
      ∃ addP remP,
        ArchiveManager.update_call fields d id name np =
          .ok (DriveCall.update id (some ⟨truthyStr name⟩) none addP remP fields false) ∧
        (truthyStr np = none → addP = none ∧ remP = none) ∧
        (∀ p, truthyStr np = some p → addP = some p ∧
          remP = (if String.intercalate "," (item.parents.getD []) = "" then none
                  else some (String.intercalate "," (item.parents.getD [])))) := by
  intro fields d id name np item h
  unfold ArchiveManager.update_call
  rw [h]
  cases hnp : truthyStr np with
  | none =>
    exact ⟨none, none, rfl, fun _ => ⟨rfl, rfl⟩, fun p hp => by cases hp⟩
  | some p =>
    refine ⟨some p,
      if String.intercalate "," (item.parents.getD []) = "" then none
      else some (String.intercalate "," (item.parents.getD [])), ?_, ?_, ?_⟩
    · by_cases hop : String.intercalate "," (item.parents.getD []) = ""
      · simp [hop]
      · simp [hop]
    · intro h2; exact Option.noConfusion h2
    · intro q hq
      injection hq with hq2
      subst hq2
      exact ⟨rfl, rfl⟩

/-- Claim C5, witness: a concrete drive where the item has two parents, a new
name and a new parent are given, and the issued call carries both the rename
and the add/remove parent arguments. -/
theorem C5_witness :
    ∃ addP remP,
      ArchiveManager.update_call FileManager.itemFields
          [⟨some "f1", some "a.txt", some "txt", some "text/plain", some ["p1", "p2"]⟩]
          "f1" (some "new.txt") (some "np") =
        .ok (DriveCall.update "f1" (some ⟨truthyStr (some "new.txt")⟩) none addP remP
          FileManager.itemFields false) ∧
      (truthyStr (some "np") = none → addP = none ∧ remP = none) ∧
      (∀ p, truthyStr (some "np") = some p → addP = some p ∧
        remP = (if String.intercalate ","
                    ((RawRecord.parents ⟨some "f1", some "a.txt", some "txt",
                      some "text/plain", some ["p1", "p2"]⟩).getD []) = "" then none
                else some (String.intercalate ","
                    ((RawRecord.parents ⟨some "f1", some "a.txt", some "txt",
                      some "text/plain", some ["p1", "p2"]⟩).getD [])))) :=
  C5_update FileManager.itemFields
    [⟨some "f1", some "a.txt", some "txt", some "text/plain", some ["p1", "p2"]⟩]
    "f1" (some "new.txt") (some "np")
    ⟨some "f1", some "a.txt", some "txt", some "text/plain", some ["p1", "p2"]⟩ rfl

/-- Claim C6: `rootFolder()` examines the manager's own page-limited folder
listing; a failed listing and a listing with no empty-parents folder both
collapse to the same `NotFoundException(Folder, 'root')`, and otherwise the
first listed folder with an empty parents sequence is returned. -/
theorem C6_root_folder :
    (∀ e : PyExc, FolderManager.root_folder_of (.error e) =
      .error (NotFoundException "Folder" "root")) ∧
    (∀ fs : List Folder, (∀ f ∈ fs, f.parents ≠ []) →
      FolderManager.root_folder_of (.ok fs) =
        .error (NotFoundException "Folder" "root")) ∧
    (∀ (fs : List Folder) (i : Nat) (h : i < fs.length),
      (fs.get ⟨i, h⟩).parents = [] →
      (∀ j (hj : j < i), (fs.get ⟨j, Nat.lt_trans hj h⟩).parents ≠ []) →
      FolderManager.root_folder_of (.ok fs) = .ok (fs.get ⟨i, h⟩)) ∧
    (∀ d : Drive, FolderManager.root_folder d =
      FolderManager.root_folder_of (FolderManager.list d 10)) := by
  refine ⟨fun e => rfl, ?_, ?_, fun d => rfl⟩
  · intro fs hall
    have hred : FolderManager.root_folder_of (.ok fs) =
        (match fs.find? (fun f => f.parents.isEmpty) with
         | some f => .ok f
         | none => .error (NotFoundException "Folder" "root")) := rfl
    have hfind : fs.find? (fun f => f.parents.isEmpty) = none := by
      apply List.find?_eq_none.mpr
      intro f hf
      simpa [List.isEmpty_iff] using hall f hf
    rw [hred, hfind]
  · intro fs i h hp hprev
    have hred : FolderManager.root_folder_of (.ok fs) =
        (match fs.find? (fun f => f.parents.isEmpty) with
         | some f => .ok f
         | none => .error (NotFoundException "Folder" "root")) := rfl
    have hfind : fs.find? (fun f => f.parents.isEmpty) = some (fs.get ⟨i, h⟩) := by
      apply list_find_first
      · simpa [List.isEmpty_iff] using hp
      · intro j hj
        simpa [List.isEmpty_iff] using hprev j hj
    rw [hred, hfind]

/-- Claim C6, witness: a listing whose second folder is the first with empty
parents is resolved to that folder, and the empty listing collapses to the 404
root envelope. -/
theorem C6_witness :
    FolderManager.root_folder_of (.ok
        [⟨"f1", "sub", ["r"], "l1"⟩, ⟨"r", "My Drive", [], "l2"⟩]) =
      .ok (([⟨"f1", "sub", ["r"], "l1"⟩, ⟨"r", "My Drive", [], "l2"⟩] :
        List Folder).get ⟨1, by decide⟩) ∧
    FolderManager.root_folder_of (.ok ([⟨"f1", "sub", ["r"], "l1"⟩] : List Folder)) =
      .error (NotFoundException "Folder" "root") :=
  ⟨C6_root_folder.2.2.1 [⟨"f1", "sub", ["r"], "l1"⟩, ⟨"r", "My Drive", [], "l2"⟩]
      1 (by decide) rfl
      (by intro j hj
          have hj0 : j = 0 := by omega
          subst hj0
          simp),
   C6_root_folder.2.1 [⟨"f1", "sub", ["r"], "l1"⟩]
      (by intro f hf
          rcases List.mem_singleton.mp hf with rfl
          simp)⟩

/-- Claim C7, counterexample: the code enforces no non-emptiness — a provider
record whose `id` and `name` are the empty string converts successfully, and
`GET /files/` hands the caller a `File` with empty `id`, empty `name` and an
empty parents sequence even though a file is never a root item. -/
theorem C7_counterexample :
    routeListFiles [⟨some "", some "", some "", some "text/plain", none⟩] =
      .ok [⟨"", "", "", [], "text/plain", "https://drive.google.com/file/d/",
            "https://drive.google.com/uc?export=download&id="⟩] := by
  rfl

/-- Claim C7, amended: every Archive Item returned to a caller carries exactly
the `id` and `name` strings of the provider record it was built from (which
the code does not require to be non-empty), and its parents sequence is
exactly the record's parents list, empty precisely when the provider listed
none — independent of whether the item is a root item. -/
theorem C7_amended_thm :
    (∀ (r : RawRecord) (f : File), File.from_json r = .ok f →
      r.id = some f.id ∧ r.name = some f.name ∧ f.parents = r.parents.getD []) ∧
    (∀ (r : RawRecord) (g : Folder), Folder.from_json r = .ok g →
      r.id = some g.id ∧ r.name = some g.name ∧ g.parents = r.parents.getD []) := by
  constructor
  · rintro ⟨id, name, ext, mt, ps⟩ f h
    cases id <;> cases name <;> cases ext <;> cases mt <;> simp [File.from_json] at h
    subst h
    simp
  · rintro ⟨id, name, ext, mt, ps⟩ g h
    cases id <;> cases name <;> simp [Folder.from_json] at h
    subst h
    simp

/-- Claim C7, witness for the amended theorem at a concrete record. -/
theorem C7_witness :
    (⟨some "idX", some "nmX", some "txt", some "text/plain",
        some ["p"]⟩ : RawRecord).id = some "idX" ∧
    (⟨some "idX", some "nmX", some "txt", some "text/plain",
        some ["p"]⟩ : RawRecord).name = some "nmX" ∧
    File.parents ⟨"idX", "nmX", "txt", ["p"], "text/plain",
        "https://drive.google.com/file/d/idX",
        "https://drive.google.com/uc?export=download&id=idX"⟩ =
      ((⟨some "idX", some "nmX", some "txt", some "text/plain",
        some ["p"]⟩ : RawRecord).parents).getD [] :=
  C7_amended_thm.1 ⟨some "idX", some "nmX", some "txt", some "text/plain", some ["p"]⟩
    ⟨"idX", "nmX", "txt", ["p"], "text/plain",
      "https://drive.google.com/file/d/idX",
      "https://drive.google.com/uc?export=download&id=idX"⟩ rfl

/-- Claim C8: a record with all the variant's required provider fields
converts to the configured Item (an absent `parents` key yielding an empty
parents list, not an error); a record missing a required field makes the
conversion raise a `KeyError`; and in `list` every page record is converted,
so an all-good page yields one item per record while any malformed record
makes the whole listing propagate the construction error. -/
theorem C8_conversion :
    (∀ r : RawRecord, r.id.isSome ∧ r.name.isSome ∧ r.fileExtension.isSome ∧
        r.mimeType.isSome →
      ∃ f, File.from_json r = .ok f ∧ (r.parents = none → f.parents = [])) ∧
    (∀ r : RawRecord, r.id.isNone ∨ r.name.isNone ∨ r.fileExtension.isNone ∨
        r.mimeType.isNone →
      ∃ k, File.from_json r = .error (.keyError k)) ∧
    (∀ r : RawRecord, r.id.isSome ∧ r.name.isSome →
      ∃ g, Folder.from_json r = .ok g ∧ (r.parents = none → g.parents = [])) ∧
    (∀ r : RawRecord, r.id.isNone ∨ r.name.isNone →
      ∃ k, Folder.from_json r = .error (.keyError k)) ∧
    (∀ rs : List RawRecord, (∀ r ∈ rs, ∃ f, File.from_json r = .ok f) →
      ∃ fs, exceptMap File.from_json rs = .ok fs ∧ fs.length = rs.length) ∧
    (∀ (rs : List RawRecord) (e : PyExc), exceptMap File.from_json rs = .error e →
      ∃ r ∈ rs, File.from_json r = .error e) ∧
    (∀ (d : Drive) (ps : Nat), FileManager.list d ps =
      exceptMap File.from_json (providerListPage d false ps)) := by
  refine ⟨?_, ?_, ?_, ?_, exceptMap_ok_of_forall File.from_json,
    exceptMap_error_mem File.from_json, fun d ps => rfl⟩
  · rintro ⟨id, name, ext, mt, ps⟩ ⟨h1, h2, h3, h4⟩
    cases id <;> cases name <;> cases ext <;> cases mt <;> simp_all [File.from_json]
  · rintro ⟨id, name, ext, mt, ps⟩ h
    cases id <;> cases name <;> cases ext <;> cases mt <;>
      simp_all [File.from_json]
  · rintro ⟨id, name, ext, mt, ps⟩ ⟨h1, h2⟩
    cases id <;> cases name <;> simp_all [Folder.from_json]
  · rintro ⟨id, name, ext, mt, ps⟩ h
    cases id <;> cases name <;> simp_all [Folder.from_json]

/-- Claim C8, witness: a record missing only `parents` converts with an empty
parents list; a record missing `mimeType` raises a `KeyError`; a two-record
page with one malformed record propagates the construction error. -/
theorem C8_witness :
    (∃ f, File.from_json ⟨some "i", some "n", some "e", some "m", none⟩ = .ok f ∧
      ((⟨some "i", some "n", some "e", some "m", none⟩ : RawRecord).parents = none →
        f.parents = [])) ∧
    (∃ k, File.from_json ⟨some "i", some "n", some "e", none, some []⟩ =
      .error (.keyError k)) ∧
    (∃ r ∈ [(⟨some "i", some "n", some "e", some "m", some []⟩ : RawRecord),
            ⟨none, some "n2", some "e2", some "m2", some []⟩],
      File.from_json r = .error (.keyError "id")) :=
  ⟨C8_conversion.1 ⟨some "i", some "n", some "e", some "m", none⟩
      ⟨rfl, rfl, rfl, rfl⟩,
   C8_conversion.2.1 ⟨some "i", some "n", some "e", none, some []⟩
      (Or.inr (Or.inr (Or.inr rfl))),
   C8_conversion.2.2.2.2.2.1
      [⟨some "i", some "n", some "e", some "m", some []⟩,
       ⟨none, some "n2", some "e2", some "m2", some []⟩]
      (.keyError "id") rfl⟩

/-- Claim C10: for every accepted provider record with identifier `i` the
constructed `File` has `link` and `downloadLink` equal to the two fixed
prefixes followed by `i`, and the constructed `Folder` has `link` equal to the
folder prefix followed by `i`; since the links are determined by `i` alone,
records agreeing on `id` yield identical links whatever their other fields. -/
theorem C10_links :
    (∀ (r : RawRecord) (f : File) (i : String), File.from_json r = .ok f →
      r.id = some i →
      f.link = "https://drive.google.com/file/d/" ++ i ∧
      f.downloadLink = "https://drive.google.com/uc?export=download&id=" ++ i) ∧
    (∀ (r : RawRecord) (g : Folder) (i : String), Folder.from_json r = .ok g →
      r.id = some i → g.link = "https://drive.google.com/drive/folders/" ++ i) ∧
    (∀ (r1 r2 : RawRecord) (f1 f2 : File), File.from_json r1 = .ok f1 →
      File.from_json r2 = .ok f2 → r1.id = r2.id →
      f1.link = f2.link ∧ f1.downloadLink = f2.downloadLink) := by
  have hfile : ∀ (r : RawRecord) (f : File) (i : String), File.from_json r = .ok f →
      r.id = some i →
      f.link = "https://drive.google.com/file/d/" ++ i ∧
      f.downloadLink = "https://drive.google.com/uc?export=download&id=" ++ i := by
    rintro ⟨id, name, ext, mt, ps⟩ f i h hi
    cases id <;> cases name <;> cases ext <;> cases mt <;> simp [File.from_json] at h
    subst h
    simp_all
  refine ⟨hfile, ?_, ?_⟩
  · rintro ⟨id, name, ext, mt, ps⟩ g i h hi
    cases id <;> cases name <;> simp [Folder.from_json] at h
    subst h
    simp_all
  · intro r1 r2 f1 f2 h1 h2 hid
    have hi1 : r1.id = some f1.id := by
      rcases r1 with ⟨id, name, ext, mt, ps⟩
      cases id <;> cases name <;> cases ext <;> cases mt <;> simp [File.from_json] at h1
      subst h1
      simp
    have hi2 : r2.id = some f2.id := by
      rcases r2 with ⟨id, name, ext, mt, ps⟩
      cases id <;> cases name <;> cases ext <;> cases mt <;> simp [File.from_json] at h2
      subst h2
      simp
    have heq : f1.id = f2.id := by
      rw [hi1, hi2] at hid
      exact Option.some.inj hid
    obtain ⟨l1, d1⟩ := hfile r1 f1 f1.id h1 hi1
    obtain ⟨l2, d2⟩ := hfile r2 f2 f2.id h2 hi2
    rw [l1, d1, l2, d2, heq]
    exact ⟨rfl, rfl⟩

/-- Claim C10, witness at a concrete record. -/
theorem C10_witness :
    File.link ⟨"abc", "n", "txt", [], "text/plain",
        "https://drive.google.com/file/d/abc",
        "https://drive.google.com/uc?export=download&id=abc"⟩ =
      "https://drive.google.com/file/d/" ++ "abc" ∧
    File.downloadLink ⟨"abc", "n", "txt", [], "text/plain",
        "https://drive.google.com/file/d/abc",
        "https://drive.google.com/uc?export=download&id=abc"⟩ =
      "https://drive.google.com/uc?export=download&id=" ++ "abc" :=
  C10_links.1 ⟨some "abc", some "n", some "txt", some "text/plain", some []⟩
    ⟨"abc", "n", "txt", [], "text/plain",
      "https://drive.google.com/file/d/abc",
      "https://drive.google.com/uc?export=download&id=abc"⟩ "abc" rfl rfl

/-- Claim C9: for every credential bundle (a finite string-to-string mapping,
its keys pairwise distinct as in a Python `dict`) and every key under which
the Fernet primitive honours its round-trip contract, decrypting the
encryption of the bundle yields the original bundle:
`CriptDict.decrypt (CriptDict.encrypt bundle key) key == bundle`.  The JSON
leg of the round trip (`json.loads` after `json.dumps`, including string
escaping, `ensure_ascii` `\uXXXX` escapes and surrogate pairs) is proved
concretely via `loadsDict_dumps`. -/
theorem C9_roundtrip :
    ∀ (f : FernetModel) (key : String) (bundle : List (String × String)),
      (∀ p, f.dec key (f.enc key p) = some p) →
      (bundle.map Prod.fst).Nodup →
      CriptDict.decrypt f (CriptDict.encrypt f bundle key) key = .ok bundle := by
  intro f key bundle hf _
  rw [CriptDict.encrypt, CriptDict.decrypt, hf]
  simp only []
  rw [loadsDict_dumps]

/-- Claim C9, witness: the identity Fernet model and a two-field bundle whose
private key contains newlines, quotes, a backslash, an accented character and
an astral-plane character — exercising every escaping regime. -/
theorem C9_witness :
    CriptDict.decrypt ⟨fun _ p => p, fun _ t => some t⟩
        (CriptDict.encrypt ⟨fun _ p => p, fun _ t => some t⟩
          [("projectId", "demo-project"),
           ("privateKey", "line1\nline2\"x\\yé" ++ String.mk [Char.ofNat 128512])] "k") "k" =
      .ok [("projectId", "demo-project"),
           ("privateKey", "line1\nline2\"x\\yé" ++ String.mk [Char.ofNat 128512])] :=
  C9_roundtrip ⟨fun _ p => p, fun _ t => some t⟩ "k"
    [("projectId", "demo-project"),
     ("privateKey", "line1\nline2\"x\\yé" ++ String.mk [Char.ofNat 128512])]
    (fun p => rfl) (by decide)
